import Mathlib

/-!
Shallow embedding of the favicon-finder backend core
(`src/backend/src/faviconFinder.ts`): the per-domain resolver
`findFavicon`, the batch orchestrator `processBatch`, and the
rank-sorting step of `processCsvFile`.

Network I/O is modelled by an oracle (`Net`) fixing, per scheme, the
outcome of the three possible requests a resolution can issue
(HEAD for `/favicon.ico`, ranged GET for the same path, and the
homepage GET).  The cache service (`src/cache.ts`, not part of the
sources) is modelled from the spec as a key-value map
`String → Option String` whose calls never raise; the string
"NOT_FOUND" is the negative sentinel.  The WHATWG URL constructor used
by the source (`new URL`) is modelled for http-style URLs by
`urlOrigin` / `urlResolveRel`.
-/

namespace FaviconFinder

/-- Model of JS truthiness for `string | null` values: non-null and non-empty. -/
def jsTruthy : Option String → Bool
  | some c => c ≠ ""
  | none => false

/-- Model of the JS expression `o || d` for an optional string `o`
(used by the source as `responseUrl || faviconUrl`): falls back to `d`
when `o` is absent or empty. -/
def jsOr : Option String → String → String
  | some s, d => if s = "" then d else s
  | none, d => d

/-- Model of `s.startsWith(p)` (JS `String.prototype.startsWith`). -/
def strStarts (s p : String) : Bool :=
  p.toList.isPrefixOf s.toList

/-- Model of `s.trim()` (JS `String.prototype.trim`): strip whitespace
from both ends. -/
def jsTrim (s : String) : String :=
  ⟨((s.toList.dropWhile Char.isWhitespace).reverse.dropWhile Char.isWhitespace).reverse⟩

/-! ## Model of the WHATWG URL collaborator (`new URL`) -/

/-- Auxiliary scan for `hasScheme`: the boolean argument records whether
at least one character precedes the current position. -/
def hasSchemeAux : List Char → Bool → Bool
  | [], _ => false
  | c :: rest, seen =>
    if c = ':' then seen
    else if c = '/' then false
    else hasSchemeAux rest true

/-- Whether a string begins with a URL scheme, i.e. has a nonempty run of
characters followed by a colon, before any slash.  Used to model
`new URL(rel, base)` ignoring its base when `rel` is absolute, and to
state the spec notion of a value that "already starts with a scheme". -/
def hasScheme (s : String) : Bool := hasSchemeAux s.toList false

/-- Split a character list at the first occurrence of "://", returning
the part before it and the part after it. -/
def breakScheme : List Char → Option (List Char × List Char)
  | [] => none
  | ':' :: '/' :: '/' :: rest => some ([], rest)
  | c :: rest => (breakScheme rest).map (fun p => (c :: p.1, p.2))

/-- The host-port characters: everything before the first
path/query/fragment delimiter. -/
def hostPart (after : List Char) : List Char :=
  after.takeWhile (fun c => !(c = '/' || c = '?' || c = '#'))

/-- Model of `new URL(s).origin` for http-style URLs: the scheme and the
host-port part; `none` models the constructor throwing on an input with
no `://` or an empty scheme or host. -/
def urlOrigin (s : String) : Option String :=
  match breakScheme s.toList with
  | none => none
  | some (scheme, after) =>
    let host := hostPart after
    if scheme.isEmpty || host.isEmpty then none
    else some ⟨scheme ++ ':' :: '/' :: '/' :: host⟩

/-- Model of `new URL(rel, base).href`: an absolute `rel` (one with a
scheme) is returned unchanged; otherwise `rel` is appended to the
directory part of `base` (the path up to its last slash, or the root
when the path has none); `none` models the constructor throwing on an
unparsable base. -/
def urlResolveRel (rel base : String) : Option String :=
  if hasScheme rel then some rel
  else
    match breakScheme base.toList with
    | none => none
    | some (scheme, after) =>
      let host := hostPart after
      if scheme.isEmpty || host.isEmpty then none
      else
        let path := after.drop host.length
        let dir :=
          if path.contains '/' then (path.reverse.dropWhile (fun c => c ≠ '/')).reverse
          else ['/']
        some ⟨scheme ++ ':' :: '/' :: '/' :: host ++ dir ++ rel.toList⟩

/-! ## HTML documents and the selector list (lines 144-183 of the source) -/

/-- An element of the parsed markup: tag name and attribute list. -/
structure Elem where
  tag : String
  attrs : List (String × String)
deriving DecidableEq

/-- Model of cheerio `element.attr(name)`: first attribute with the
given name, if any. -/
def attrOf (e : Elem) (name : String) : Option String :=
  (e.attrs.find? (fun p => p.1 = name)).map (fun p => p.2)

/-- The six entries of the source's `iconSelectors` array, in order. -/
inductive Sel
  | relIcon
  | relShortcutIcon
  | relTildeIcon
  | relAppleTouch
  | relAppleTouchPre
  | ogImage
deriving DecidableEq

/-- Whitespace-separated token list of an attribute value (for the
CSS `~=` attribute selector). -/
def relTokens (s : String) : List String :=
  (s.splitOn " ").filter (fun t => t ≠ "")

/-- CSS attribute-selector matching for the six selectors of the source. -/
def matchesSel : Sel → Elem → Bool
  | .relIcon, e => e.tag = "link" && attrOf e "rel" = some "icon"
  | .relShortcutIcon, e => e.tag = "link" && attrOf e "rel" = some "shortcut icon"
  | .relTildeIcon, e =>
    e.tag = "link" &&
      (match attrOf e "rel" with
       | some r => (relTokens r).contains "icon"
       | none => false)
  | .relAppleTouch, e => e.tag = "link" && attrOf e "rel" = some "apple-touch-icon"
  | .relAppleTouchPre, e => e.tag = "link" && attrOf e "rel" = some "apple-touch-icon-precomposed"
  | .ogImage, e => e.tag = "meta" && attrOf e "property" = some "og:image"

/-- The source's `iconSelectors` list, in its priority order. -/
def iconSelectors : List Sel :=
  [.relIcon, .relShortcutIcon, .relTildeIcon, .relAppleTouch, .relAppleTouchPre, .ogImage]

/-- Model of `$(selector).first().attr('href')`: the source reads the
`href` attribute for every selector, including the `og:image` meta one. -/
def firstHref (doc : List Elem) (sel : Sel) : Option String :=
  (doc.find? (matchesSel sel)).bind (fun e => attrOf e "href")

/-- URL normalization applied to an extracted candidate (source lines
164-173): protocol-relative values get the current scheme, root-relative
values are resolved against the base origin, values NOT starting with
the literal string "http" are resolved as relative references, and the
rest are used as-is.  `none` models a throwing `new URL`, caught by the
source's `catch { continue }`. -/
def normalizeCandidate (protocol baseUrl f : String) : Option String :=
  if strStarts f "//" then some (protocol ++ ":" ++ f)
  else if strStarts f "/" then (urlOrigin baseUrl).map (fun o => o ++ f)
  else if !strStarts f "http" then urlResolveRel f baseUrl
  else some f

/-- One iteration of the selector loop (source lines 157-183): extract
the first matching element's `href`, guard against empty and
`data:`-prefixed values, then normalize.  `none` means the loop
continues with the next selector. -/
def trySelector (protocol baseUrl : String) (doc : List Elem) (sel : Sel) : Option String :=
  match firstHref doc sel with
  | none => none
  | some h =>
    if jsTrim h ≠ "" && !strStarts h "data:" then
      normalizeCandidate protocol baseUrl (jsTrim h)
    else none

/-- A fetched homepage: the parsed document and the optional final
post-redirect URL exposed by the HTTP client. -/
structure HtmlResp where
  doc : List Elem
  responseUrl : Option String
deriving DecidableEq

/-- The candidate produced by the HTML-discovery step for one scheme
(source lines 144-183): the first selector whose extracted, guarded and
normalized value succeeds. -/
def htmlCandidate (protocol domain : String) (r : HtmlResp) : Option String :=
  let url := protocol ++ "://" ++ domain
  let baseUrl := jsOr r.responseUrl url
  iconSelectors.findSome? (trySelector protocol baseUrl r.doc)

/-! ## The binary-asset probe (source lines 87-129) -/

/-- A HEAD response the HTTP client resolved (status in [200, 400) by
`validateStatus`).  The content-length header is carried but never read
by the source. -/
structure HeadResp where
  status : Nat
  contentLength : Option Nat
  responseUrl : Option String
deriving DecidableEq

/-- A HEAD failure: the response status if an HTTP response arrived
(4xx/5xx), and the client error code otherwise (e.g. "ENOTFOUND",
"ECONNABORTED"). -/
structure HeadErrInfo where
  respStatus : Option Nat
  code : Option String
deriving DecidableEq

/-- A resolved ranged GET of `/favicon.ico`: payload size and optional
final URL. -/
structure GetResp where
  dataSize : Nat
  responseUrl : Option String
deriving DecidableEq

deriving instance DecidableEq for Except

/-- Network oracle for one scheme: outcomes of the HEAD probe, the GET
fallback and the homepage fetch, an `Except.error` modelling a thrown
request (timeout, DNS failure, rejected status, ...). -/
structure NetScheme where
  headIco : Except HeadErrInfo HeadResp
  getIco : Except Unit GetResp
  getHtml : Except Unit HtmlResp
deriving DecidableEq

/-- Network oracle for both schemes tried by the source, `https` first. -/
structure Net where
  https : NetScheme
  http : NetScheme
deriving DecidableEq

/-- The `{scheme}://{domain}/favicon.ico` URL of the probe. -/
def icoUrl (protocol domain : String) : String :=
  protocol ++ "://" ++ domain ++ "/favicon.ico"

/-- The condition of source line 107 under which a HEAD failure is
rethrown (skipping the GET fallback): a 405 response or an ENOTFOUND
error code. -/
def headRethrows (e : HeadErrInfo) : Bool :=
  e.respStatus = some 405 || e.code = some "ENOTFOUND"

/-- The candidate produced by the binary-asset probe for one scheme
(source lines 87-126): a 2xx HEAD succeeds with the final URL; a HEAD
failure other than 405/ENOTFOUND falls through to the ranged GET, whose
non-empty payload succeeds with the final URL. -/
def probeResult (protocol domain : String) (s : NetScheme) : Option String :=
  match s.headIco with
  | .ok h =>
    if 200 ≤ h.status ∧ h.status < 300 then
      some (jsOr h.responseUrl (icoUrl protocol domain))
    else none
  | .error e =>
    if headRethrows e then none
    else
      match s.getIco with
      | .ok g =>
        if 0 < g.dataSize then some (jsOr g.responseUrl (icoUrl protocol domain))
        else none
      | .error _ => none

/-- Whether the GET fallback is issued for this scheme: only after a
HEAD failure that is not rethrown. -/
def getAttempted (s : NetScheme) : Bool :=
  match s.headIco with
  | .ok _ => false
  | .error e => !headRethrows e

/-- A network operation, for stating which requests a resolution issues. -/
inductive NetOp
  | headIco (url : String)
  | getIco (url : String)
  | getHtml (url : String)
deriving DecidableEq

/-- The network operations one scheme's pass issues: always the HEAD,
the GET only when the HEAD failure falls through, the homepage fetch
only when the probe produced no candidate. -/
def schemeOps (protocol domain : String) (s : NetScheme) : List NetOp :=
  [NetOp.headIco (icoUrl protocol domain)]
    ++ (if getAttempted s then [NetOp.getIco (icoUrl protocol domain)] else [])
    ++ (if probeResult protocol domain s = none then
          [NetOp.getHtml (protocol ++ "://" ++ domain)]
        else [])

/-- The candidate one scheme's whole pass produces: the probe's
candidate, else the HTML-discovery candidate when the homepage fetch
succeeded. -/
def schemeResult (protocol domain : String) (s : NetScheme) : Option String :=
  match probeResult protocol domain s with
  | some u => some u
  | none =>
    match s.getHtml with
    | .error _ => none
    | .ok r => htmlCandidate protocol domain r

/-! ## The resolver `findFavicon` (source lines 65-196) -/

/-- A write against the cache service: positive entry or negative
sentinel. -/
inductive CacheWrite
  | set (domain url : String)
  | setNotFound (domain : String)
deriving DecidableEq

/-- Everything observable about one `findFavicon` run: its return value
(`none` models `null`), the cache writes it performed, and the network
operations it issued. -/
structure FindOutcome where
  result : Option String
  writes : List CacheWrite
  ops : List NetOp
deriving DecidableEq

/-- The cache-miss path of `findFavicon` (source lines 83-192): try the
schemes `https` then `http`; the first candidate is cached positively
and returned; with no candidate the negative sentinel is cached and
`null` returned. -/
def findFaviconMiss (net : Net) (domain : String) : FindOutcome :=
  match schemeResult "https" domain net.https with
  | some u => ⟨some u, [.set domain u], schemeOps "https" domain net.https⟩
  | none =>
    match schemeResult "http" domain net.http with
    | some u =>
      ⟨some u, [.set domain u],
        schemeOps "https" domain net.https ++ schemeOps "http" domain net.http⟩
    | none =>
      ⟨none, [.setNotFound domain],
        schemeOps "https" domain net.https ++ schemeOps "http" domain net.http⟩

/-- The resolver `findFavicon` (source lines 65-196).  The cache is
modelled from the spec as `String → Option String` whose calls never
raise; a truthy cached value short-circuits all network work, the
sentinel "NOT_FOUND" yielding `null` and any other value being returned
as the favicon URL. -/
def findFavicon (net : Net) (cache : String → Option String) (domain : String) : FindOutcome :=
  match cache domain with
  | some c =>
    if c = "" then findFaviconMiss net domain
    else if c = "NOT_FOUND" then ⟨none, [], []⟩
    else ⟨some c, [], []⟩
  | none => findFaviconMiss net domain

/-! ## The orchestrator `processBatch` (source lines 201-268) -/

/-- One input record: rank and bare domain name. -/
structure DomainRecord where
  rank : Int
  domain : String
deriving DecidableEq

/-- One output record, mirroring the source's `FaviconResult` interface
(`error` is the optional error-message field). -/
structure FaviconResult where
  rank : Int
  domain : String
  favicon_url : String
  status : String
  error : Option String
deriving DecidableEq

/-- The outcome of one per-domain resolution as seen by `processBatch`:
a returned value together with the cache writes performed, or a thrown
exception (with message) together with the writes performed before the
throw. -/
inductive ResolveOutcome
  | ok (result : Option String) (writes : List CacheWrite)
  | threw (msg : String) (writes : List CacheWrite)
deriving DecidableEq

/-- The cache writes an outcome performed. -/
def writesOf : ResolveOutcome → List CacheWrite
  | .ok _ w => w
  | .threw _ w => w

/-- Building a result from a returned favicon value (source lines
220-236): a truthy value yields status "found", otherwise status
"not_found" with the fixed message "No favicon found". -/
def mkOkResult (r : DomainRecord) (fav : Option String) : FaviconResult :=
  match fav with
  | some f =>
    if f = "" then ⟨r.rank, r.domain, "", "not_found", some "No favicon found"⟩
    else ⟨r.rank, r.domain, f, "found", none⟩
  | none => ⟨r.rank, r.domain, "", "not_found", some "No favicon found"⟩

/-- Processing of one record against a resolution outcome (source lines
216-260): the per-record catch converts a thrown exception into a
result with status "error" and the exception's message. -/
def processRecordO (r : DomainRecord) (o : ResolveOutcome) : FaviconResult :=
  match o with
  | .ok fav _ => mkOkResult r fav
  | .threw msg _ => ⟨r.rank, r.domain, "", "error", some msg⟩

/-- Processing of one record by a resolver function. -/
def processRecord (resolve : String → ResolveOutcome) (r : DomainRecord) : FaviconResult :=
  processRecordO r (resolve r.domain)

/-- Partition into the source's concurrency windows: slices of
`CONCURRENT_REQUESTS = 100` records (source line 213-214). -/
def chunksOf : List α → List (List α)
  | [] => []
  | x :: xs => (x :: xs.take 99) :: chunksOf (xs.drop 99)
termination_by l => l.length
decreasing_by simp; omega

/-- The orchestrator `processBatch` (source lines 201-268): each window
is resolved (in the model: mapped) and the windows' results are
concatenated in order, as `Promise.all` preserves order. -/
def processBatch (resolve : String → ResolveOutcome) (domains : List DomainRecord) :
    List FaviconResult :=
  ((chunksOf domains).map (fun batch => batch.map (processRecord resolve))).flatten

/-- The rank sort of `processCsvFile` (source line 321):
`results.sort((a, b) => a.rank - b.rank)`.  JS `Array.prototype.sort`
is a stable sort, so it is modelled by `List.mergeSort` under the
comparator's induced order. -/
def sortResults (results : List FaviconResult) : List FaviconResult :=
  results.mergeSort (fun a b => a.rank ≤ b.rank)

/-! ## Fault model for exceptions escaping a resolution -/

/-- Modelled from the spec: the cache service calls "degrade to a
no-op/absent result rather than raising".  The only operations of
`findFavicon` outside every try/catch are the `cacheService.get` call
(line 71) and the `cacheService.setNotFound` call (line 190); this
configuration lets either of those two calls throw instead, which is
the only way an exception escapes a single domain's resolution.  A
throwing call stores nothing. -/
structure FaultCfg where
  getFault : Option String
  setNotFoundFault : Option String
deriving DecidableEq

/-- The cache-miss path under the fault model: a fault of the final
`setNotFound` call escapes with no write stored. -/
def findFaviconMissF (net : Net) (faults : FaultCfg) (domain : String) : ResolveOutcome :=
  match schemeResult "https" domain net.https with
  | some u => .ok (some u) [.set domain u]
  | none =>
    match schemeResult "http" domain net.http with
    | some u => .ok (some u) [.set domain u]
    | none =>
      match faults.setNotFoundFault with
      | some m => .threw m []
      | none => .ok none [.setNotFound domain]

/-- The resolver under the fault model: a fault of the initial
`cacheService.get` call (source line 71) escapes before any write. -/
def findFaviconF (net : Net) (cache : String → Option String) (faults : FaultCfg)
    (domain : String) : ResolveOutcome :=
  match faults.getFault with
  | some m => .threw m []
  | none =>
    match cache domain with
    | some c =>
      if c = "" then findFaviconMissF net faults domain
      else if c = "NOT_FOUND" then .ok none []
      else .ok (some c) []
    | none => findFaviconMissF net faults domain

/-- Application of a list of cache writes to a cache state ("NOT_FOUND"
being the stored sentinel), in order. -/
def applyWrites (cache : String → Option String) : List CacheWrite → (String → Option String)
  | [] => cache
  | .set d u :: ws => applyWrites (fun x => if x = d then some u else cache x) ws
  | .setNotFound d :: ws => applyWrites (fun x => if x = d then some "NOT_FOUND" else cache x) ws

/-! ## Well-formedness of the network oracle -/

/-- A final-URL field is URL-like: when present and non-empty it
contains a colon (every URL the HTTP client reports carries its
scheme).  Rules out pathological oracles whose reported final URL is
the cache sentinel itself. -/
def urlish (o : Option String) : Prop :=
  ∀ s, o = some s → s ≠ "" → ':' ∈ s.toList

/-- Well-formed scheme oracle: resolved probe responses report URL-like
final URLs. -/
def wfScheme (s : NetScheme) : Prop :=
  (∀ h, s.headIco = .ok h → urlish h.responseUrl) ∧
  (∀ g, s.getIco = .ok g → urlish g.responseUrl)

/-- Well-formed network oracle. -/
def wfNet (net : Net) : Prop :=
  wfScheme net.https ∧ wfScheme net.http

/-- One scheme's pass produced no candidate: the binary-asset probe
yielded nothing and, when the homepage fetch succeeded, HTML discovery
yielded nothing either. -/
def schemeNoCandidate (protocol domain : String) (s : NetScheme) : Prop :=
  probeResult protocol domain s = none ∧
  ∀ r, s.getHtml = .ok r → htmlCandidate protocol domain r = none

/-- A scheme oracle on which every network call times out. -/
def timeoutScheme : NetScheme :=
  ⟨.error ⟨none, some "ETIMEDOUT"⟩, .error (), .error ()⟩

/-- A network oracle on which every network call times out. -/
def timeoutNet : Net := ⟨timeoutScheme, timeoutScheme⟩

/-- A scheme oracle whose HEAD probe fails with status 405 while the
ranged GET would return a non-empty payload and the homepage fetch
fails. -/
def head405Scheme : NetScheme :=
  ⟨.error ⟨some 405, none⟩, .ok ⟨50, none⟩, .error ()⟩

/-- A network oracle behaving like `head405Scheme` on both schemes. -/
def head405Net : Net := ⟨head405Scheme, head405Scheme⟩

/-- A document whose only icon-indicating element is an `og:image` meta
tag carrying its URL in the `content` attribute. -/
def ogOnlyDoc : List Elem :=
  [⟨"meta", [("property", "og:image"), ("content", "https://x.com/img.png")]⟩]

/-! ## Helper lemmas -/

theorem processRecordO_rank (r : DomainRecord) (o : ResolveOutcome) :
    (processRecordO r o).rank = r.rank := by
  rcases o with ⟨fav, w⟩ | ⟨m, w⟩
  · rcases fav with _ | f
    · rfl
    · by_cases hf : f = "" <;> simp [processRecordO, mkOkResult, hf]
  · rfl

theorem processRecordO_domain (r : DomainRecord) (o : ResolveOutcome) :
    (processRecordO r o).domain = r.domain := by
  rcases o with ⟨fav, w⟩ | ⟨m, w⟩
  · rcases fav with _ | f
    · rfl
    · by_cases hf : f = "" <;> simp [processRecordO, mkOkResult, hf]
  · rfl

theorem mkOkResult_status (r : DomainRecord) (fav : Option String) :
    (mkOkResult r fav).status = "found" ∨ (mkOkResult r fav).status = "not_found" := by
  rcases fav with _ | f
  · exact Or.inr rfl
  · by_cases hf : f = "" <;> simp [mkOkResult, hf]

theorem chunksOf_flatten (l : List α) : (chunksOf l).flatten = l := by
  induction l using chunksOf.induct with
  | case1 => simp [chunksOf]
  | case2 x xs ih => rw [chunksOf]; simp [ih]

theorem processBatch_eq_map (resolve : String → ResolveOutcome) (domains : List DomainRecord) :
    processBatch resolve domains = domains.map (processRecord resolve) := by
  unfold processBatch
  rw [← List.map_flatten, chunksOf_flatten]


/-! ## Claim theorems -/

/-- C10: every result with status "not_found" carries the non-empty
message "No favicon found" in its error field even though its status is
not "error", and the error field is absent exactly on results with
status "found". -/
theorem not_found_results_carry_message (r : DomainRecord) (o : ResolveOutcome) :
    ((processRecordO r o).status = "not_found" →
      (processRecordO r o).error = some "No favicon found" ∧ "No favicon found" ≠ "")
    ∧ ((processRecordO r o).status = "found" ↔ (processRecordO r o).error = none) := by
  rcases o with ⟨fav, w⟩ | ⟨m, w⟩
  · rcases fav with _ | f
    · simp [processRecordO, mkOkResult]
    · by_cases hf : f = "" <;> simp [processRecordO, mkOkResult, hf]
  · simp [processRecordO]

/-- Witness for the not-found message theorem at a concrete record and
outcome. -/
theorem not_found_results_carry_message_witness :
    (processRecordO ⟨1, "a.com"⟩ (.ok none [])).error = some "No favicon found" :=
  ((not_found_results_carry_message ⟨1, "a.com"⟩ (.ok none [])).1 (by decide)).1

/-- C2: a truthy cached URL short-circuits resolution with no network
operations and no writes, returning that URL (derived status "found");
the cached sentinel "NOT_FOUND" yields `null` (derived status
"not_found") with no network operations; so network work happens only
on a cache miss. -/
theorem cache_hit_short_circuits (net : Net) (cache : String → Option String)
    (domain u : String) (hu : cache domain = some u) (hne : u ≠ "") :
    (u ≠ "NOT_FOUND" →
      findFavicon net cache domain = ⟨some u, [], []⟩
      ∧ ∀ r : DomainRecord,
          processRecordO r (.ok (some u) []) = ⟨r.rank, r.domain, u, "found", none⟩)
    ∧ (u = "NOT_FOUND" →
      findFavicon net cache domain = ⟨none, [], []⟩
      ∧ ∀ r : DomainRecord,
          processRecordO r (.ok none []) =
            ⟨r.rank, r.domain, "", "not_found", some "No favicon found"⟩) := by
  constructor
  · intro hnf
    refine ⟨?_, ?_⟩
    · simp [findFavicon, hu, hne, hnf]
    · intro r
      simp [processRecordO, mkOkResult, hne]
  · intro hnf
    subst hnf
    refine ⟨?_, ?_⟩
    · simp [findFavicon, hu, hne]
    · intro r
      simp [processRecordO, mkOkResult]

/-- Witness for the cache-hit theorem: a cached URL is returned with no
network operations on a network oracle that would fail everything. -/
theorem cache_hit_short_circuits_witness :
    findFavicon timeoutNet (fun _ => some "https://hit.com/f.ico") "hit.com"
      = ⟨some "https://hit.com/f.ico", [], []⟩ :=
  ((cache_hit_short_circuits timeoutNet (fun _ => some "https://hit.com/f.ico")
      "hit.com" "https://hit.com/f.ico" rfl (by decide)).1 (by decide)).1

/-- C5 (code bug): the `og:image` selector matches the meta element and
its `content` attribute holds a URL, yet no candidate is extracted for
any selector, because the source reads the `href` attribute for every
selector including the meta one — the social-preview fallback can never
fire. -/
theorem og_image_content_never_extracted :
    matchesSel .ogImage ⟨"meta", [("property", "og:image"), ("content", "https://x.com/img.png")]⟩
        = true
    ∧ attrOf ⟨"meta", [("property", "og:image"), ("content", "https://x.com/img.png")]⟩ "content"
        = some "https://x.com/img.png"
    ∧ firstHref ogOnlyDoc .ogImage = none
    ∧ htmlCandidate "https" "x.com" ⟨ogOnlyDoc, some "https://x.com/"⟩ = none := by
  decide

/-- C1: `processBatch` is a total function returning the per-record
results in input order — exactly one result per input record, with the
record's rank and domain — and a thrown per-domain resolution is
converted into a status-"error" result carrying the exception's
message, so the output length always equals the input length. -/
theorem processBatch_one_result_per_record
    (resolve : String → ResolveOutcome) (domains : List DomainRecord) :
    processBatch resolve domains = domains.map (processRecord resolve)
    ∧ (processBatch resolve domains).length = domains.length
    ∧ (processBatch resolve domains).map (fun r => (r.rank, r.domain))
        = domains.map (fun r => (r.rank, r.domain))
    ∧ ∀ (r : DomainRecord) (msg : String) (w : List CacheWrite),
        resolve r.domain = .threw msg w →
        processRecord resolve r = ⟨r.rank, r.domain, "", "error", some msg⟩ := by
  have hmap := processBatch_eq_map resolve domains
  refine ⟨hmap, ?_, ?_, ?_⟩
  · rw [hmap, List.length_map]
  · rw [hmap, List.map_map]
    exact List.map_congr_left fun r _ => by
      simp [Function.comp, processRecordO_rank, processRecordO_domain, processRecord]
  · intro r msg w h
    simp [processRecord, h, processRecordO]

/-- Witness for the batch theorem: a resolver that throws still
produces the error result for its record. -/
theorem processBatch_one_result_per_record_witness :
    processRecord (fun _ => .threw "boom" []) ⟨1, "a.com"⟩
      = ⟨1, "a.com", "", "error", some "boom"⟩ :=
  (processBatch_one_result_per_record (fun _ => .threw "boom" []) [⟨1, "a.com"⟩]).2.2.2
    ⟨1, "a.com"⟩ "boom" [] rfl

theorem schemeResult_eq_none (protocol domain : String) (s : NetScheme)
    (h : schemeNoCandidate protocol domain s) :
    schemeResult protocol domain s = none := by
  obtain ⟨hp, hh⟩ := h
  unfold schemeResult
  rw [hp]
  cases hg : s.getHtml with
  | error e => rfl
  | ok r => exact hh r hg

/-- C3: on a cache miss where neither scheme's probe nor HTML discovery
produces a candidate, `findFavicon` writes the negative sentinel and
returns `null`, the derived status being "not_found" and never
"error". -/
theorem all_schemes_fail_yields_not_found (net : Net) (cache : String → Option String)
    (domain : String) (hmiss : jsTruthy (cache domain) = false)
    (h1 : schemeNoCandidate "https" domain net.https)
    (h2 : schemeNoCandidate "http" domain net.http) :
    findFavicon net cache domain
      = ⟨none, [.setNotFound domain],
          schemeOps "https" domain net.https ++ schemeOps "http" domain net.http⟩
    ∧ ∀ r : DomainRecord,
        (processRecordO r (.ok none [.setNotFound domain])).status = "not_found"
        ∧ (processRecordO r (.ok none [.setNotFound domain])).status ≠ "error" := by
  have hm : findFaviconMiss net domain
      = ⟨none, [.setNotFound domain],
          schemeOps "https" domain net.https ++ schemeOps "http" domain net.http⟩ := by
    unfold findFaviconMiss
    rw [schemeResult_eq_none "https" domain net.https h1,
        schemeResult_eq_none "http" domain net.http h2]
  refine ⟨?_, ?_⟩
  · unfold findFavicon
    cases hc : cache domain with
    | none => exact hm
    | some c =>
      rw [hc] at hmiss
      simp only [jsTruthy, decide_eq_false_iff_not, not_not] at hmiss
      simp [hmiss, hm]
  · intro r
    simp [processRecordO, mkOkResult]

/-- Witness for the all-fail theorem: every network call timing out on
both schemes yields the sentinel write and a `null` result. -/
theorem all_schemes_fail_yields_not_found_witness :
    findFavicon timeoutNet (fun _ => none) "ex.com"
      = ⟨none, [.setNotFound "ex.com"],
          schemeOps "https" "ex.com" timeoutNet.https
            ++ schemeOps "http" "ex.com" timeoutNet.http⟩ :=
  (all_schemes_fail_yields_not_found timeoutNet (fun _ => none) "ex.com" rfl
      ⟨rfl, fun _ h => nomatch h⟩ ⟨rfl, fun _ h => nomatch h⟩).1

theorem findFaviconF_threw_no_writes (net : Net) (cache : String → Option String)
    (faults : FaultCfg) (d m : String) (w : List CacheWrite)
    (h : findFaviconF net cache faults d = .threw m w) : w = [] := by
  unfold findFaviconF findFaviconMissF at h
  repeat' split at h
  all_goals cases h
  all_goals rfl

/-- C8: a result acquires status "error" exactly when an exception
escaped the domain's resolution, and in that case no cache write
occurred; cache writes occur only with a "found" or "not_found"
outcome. -/
theorem error_results_never_cached (net : Net) (cache : String → Option String)
    (faults : FaultCfg) (r : DomainRecord) :
    ((processRecordO r (findFaviconF net cache faults r.domain)).status = "error" →
      writesOf (findFaviconF net cache faults r.domain) = [])
    ∧ ((processRecordO r (findFaviconF net cache faults r.domain)).status = "error" ↔
        ∃ m, findFaviconF net cache faults r.domain = .threw m [])
    ∧ (writesOf (findFaviconF net cache faults r.domain) ≠ [] →
        (processRecordO r (findFaviconF net cache faults r.domain)).status = "found"
        ∨ (processRecordO r (findFaviconF net cache faults r.domain)).status = "not_found") := by
  rcases ho : findFaviconF net cache faults r.domain with ⟨fav, w⟩ | ⟨m, w⟩
  · have hst := mkOkResult_status r fav
    have herr : (processRecordO r (.ok fav w)).status ≠ "error" := by
      rcases hst with h | h <;> simp [processRecordO] at h ⊢ <;> simp [h]
    refine ⟨fun h => absurd h herr, ⟨fun h => absurd h herr, ?_⟩, fun _ => hst⟩
    rintro ⟨m, hm⟩
    cases hm
  · have hw : w = [] := findFaviconF_threw_no_writes net cache faults r.domain m w ho
    subst hw
    refine ⟨fun _ => rfl, ⟨fun _ => ⟨m, rfl⟩, fun _ => rfl⟩, fun hne => absurd rfl hne⟩

/-- Witness for the error-caching theorem: a faulting cache lookup
yields an error outcome with no writes. -/
theorem error_results_never_cached_witness :
    writesOf (findFaviconF timeoutNet (fun _ => none) ⟨some "boom", none⟩ "a.com") = [] :=
  (error_results_never_cached timeoutNet (fun _ => none) ⟨some "boom", none⟩ ⟨1, "a.com"⟩).1
    (by decide)

/-- C4 counterexample: a 405 ("unsupported method") HEAD failure does
not fall through to the ranged GET — the probe yields nothing and the
GET, whose payload would have been non-empty, is never issued, so the
domain ends not found instead. -/
theorem head_405_skips_get_cex :
    headRethrows ⟨some 405, none⟩ = true
    ∧ head405Scheme.getIco = .ok ⟨50, none⟩
    ∧ probeResult "https" "ex.com" head405Scheme = none
    ∧ (findFavicon head405Net (fun _ => none) "ex.com").result = none
    ∧ NetOp.getIco "https://ex.com/favicon.ico"
        ∉ (findFavicon head405Net (fun _ => none) "ex.com").ops := by
  refine ⟨rfl, rfl, rfl, rfl, ?_⟩
  decide

/-- C4 (amended): a 2xx HEAD response is accepted even without a
content-length header, the final resolved URL becoming the candidate,
which is cached positively before returning; a HEAD failure other than
a 405 response or an ENOTFOUND error falls through to the ranged GET,
any non-empty payload being accepted; a 405 or ENOTFOUND HEAD failure
skips the GET and proceeds to HTML parsing for that scheme; HTML
discovery runs for a scheme only when the probe yields nothing. -/
theorem probe_favicon_ico_spec (protocol domain : String) (s : NetScheme) :
    (∀ h, s.headIco = .ok h → 200 ≤ h.status → h.status < 300 →
      probeResult protocol domain s = some (jsOr h.responseUrl (icoUrl protocol domain)))
    ∧ (∀ e, s.headIco = .error e → headRethrows e = false →
        ∀ g, s.getIco = .ok g → 0 < g.dataSize →
          probeResult protocol domain s = some (jsOr g.responseUrl (icoUrl protocol domain)))
    ∧ (∀ e, s.headIco = .error e → headRethrows e = true →
        getAttempted s = false
        ∧ NetOp.getIco (icoUrl protocol domain) ∉ schemeOps protocol domain s)
    ∧ ((probeResult protocol domain s).isSome →
        NetOp.getHtml (protocol ++ "://" ++ domain) ∉ schemeOps protocol domain s)
    ∧ (probeResult protocol domain s = none →
        NetOp.getHtml (protocol ++ "://" ++ domain) ∈ schemeOps protocol domain s)
    ∧ (∀ (net : Net) (cache : String → Option String) (u : String),
        jsTruthy (cache domain) = false →
        schemeResult "https" domain net.https = some u →
        findFavicon net cache domain
          = ⟨some u, [.set domain u], schemeOps "https" domain net.https⟩) := by
  refine ⟨?_, ?_, ?_, ?_, ?_, ?_⟩
  · intro h hh h1 h2
    simp [probeResult, hh, h1, h2]
  · intro e he hre g hg hpos
    simp [probeResult, he, hre, hg, hpos]
  · intro e he hre
    have hga : getAttempted s = false := by simp [getAttempted, he, hre]
    refine ⟨hga, ?_⟩
    simp [schemeOps, hga]
  · intro hps
    rw [Option.isSome_iff_exists] at hps
    obtain ⟨u, hu⟩ := hps
    simp [schemeOps, hu]
  · intro hnone
    simp [schemeOps, hnone]
  · intro net cache u hmiss hres
    have hm : findFaviconMiss net domain
        = ⟨some u, [.set domain u], schemeOps "https" domain net.https⟩ := by
      unfold findFaviconMiss
      rw [hres]
    unfold findFavicon
    cases hc : cache domain with
    | none => exact hm
    | some c =>
      rw [hc] at hmiss
      simp only [jsTruthy, decide_eq_false_iff_not, not_not] at hmiss
      simp [hmiss, hm]

/-- Witness for the probe theorem: a 2xx HEAD response without a
content-length header is accepted, the probe succeeding with the
request URL. -/
theorem probe_favicon_ico_spec_witness :
    probeResult "https" "ex.com" ⟨.ok ⟨200, none, none⟩, .error (), .error ()⟩
      = some "https://ex.com/favicon.ico" := by
  have h := (probe_favicon_ico_spec "https" "ex.com"
      ⟨.ok ⟨200, none, none⟩, .error (), .error ()⟩).1 ⟨200, none, none⟩ rfl
      (by decide) (by decide)
  rw [h]
  decide

/-- C6 counterexample: the candidate "httpicons/a.png" does not start
with a scheme, so by the claim it would be resolved as a relative
reference against the page's final URL, but the source's check is for
the literal text "http", so the value is used as-is. -/
theorem normalize_scheme_clause_cex :
    hasScheme "httpicons/a.png" = false
    ∧ urlResolveRel "httpicons/a.png" "https://www.x.com/dir/"
        = some "https://www.x.com/dir/httpicons/a.png"
    ∧ normalizeCandidate "https" "https://www.x.com/dir/" "httpicons/a.png"
        = some "httpicons/a.png"
    ∧ normalizeCandidate "https" "https://www.x.com/dir/" "httpicons/a.png"
        ≠ urlResolveRel "httpicons/a.png" "https://www.x.com/dir/" := by
  decide

/-- C6 (amended): normalization prefixes a protocol-relative value with
the current scheme and a colon; resolves a root-relative value against
the origin of the page's final URL; uses a value starting with the
literal text "http" as-is; resolves any other value as a relative
reference against the page's final URL; a `data:`-prefixed candidate is
rejected with the selector loop continuing; and a normalization that
throws is treated as a non-match with the loop continuing. -/
theorem url_normalization_spec (protocol baseUrl f : String) :
    (strStarts f "//" = true →
      normalizeCandidate protocol baseUrl f = some (protocol ++ ":" ++ f))
    ∧ (strStarts f "//" = false → strStarts f "/" = true →
        normalizeCandidate protocol baseUrl f = (urlOrigin baseUrl).map (fun o => o ++ f))
    ∧ (strStarts f "//" = false → strStarts f "/" = false → strStarts f "http" = true →
        normalizeCandidate protocol baseUrl f = some f)
    ∧ (strStarts f "//" = false → strStarts f "/" = false → strStarts f "http" = false →
        normalizeCandidate protocol baseUrl f = urlResolveRel f baseUrl)
    ∧ (∀ (doc : List Elem) (sel : Sel) (h : String),
        firstHref doc sel = some h → strStarts h "data:" = true →
        trySelector protocol baseUrl doc sel = none)
    ∧ (∀ (doc : List Elem) (sel : Sel) (h : String),
        firstHref doc sel = some h → jsTrim h ≠ "" → strStarts h "data:" = false →
        normalizeCandidate protocol baseUrl (jsTrim h) = none →
        trySelector protocol baseUrl doc sel = none)
    ∧ (∀ (g : Sel → Option String) (sel : Sel) (rest : List Sel), g sel = none →
        List.findSome? g (sel :: rest) = List.findSome? g rest) := by
  refine ⟨?_, ?_, ?_, ?_, ?_, ?_, ?_⟩
  · intro h1
    simp [normalizeCandidate, h1]
  · intro h1 h2
    simp [normalizeCandidate, h1, h2]
  · intro h1 h2 h3
    simp [normalizeCandidate, h1, h2, h3]
  · intro h1 h2 h3
    simp [normalizeCandidate, h1, h2, h3]
  · intro doc sel h hf hd
    simp [trySelector, hf, hd]
  · intro doc sel h hf ht hd hn
    simp [trySelector, hf, ht, hd, hn]
  · intro g sel rest hg
    simp [List.findSome?_cons, hg]

/-- Witness for the normalization theorem: a root-relative candidate is
resolved against the origin of the final page URL. -/
theorem url_normalization_spec_witness :
    normalizeCandidate "https" "https://www.x.com/" "/a.png" = some "https://www.x.com/a.png" := by
  have h := (url_normalization_spec "https" "https://www.x.com/" "/a.png").2.1
      (by decide) (by decide)
  rw [h]
  decide

theorem rankLe_trans : ∀ a b c : FaviconResult,
    decide (a.rank ≤ b.rank) = true → decide (b.rank ≤ c.rank) = true →
    decide (a.rank ≤ c.rank) = true := by
  intro a b c h1 h2
  simp only [decide_eq_true_eq] at h1 h2 ⊢
  omega

theorem rankLe_total : ∀ a b : FaviconResult,
    (decide (a.rank ≤ b.rank) || decide (b.rank ≤ a.rank)) = true := by
  intro a b
  simp only [Bool.or_eq_true, decide_eq_true_eq]
  omega

/-- C7: the final list handed back by the CSV pipeline is the stable
ascending rank sort of the batch output: it is pairwise sorted by rank,
a permutation of the batch output, and for every rank value its
subsequence of results with that rank is exactly the input records with
that rank, processed in input order (ties preserve relative input
order). -/
theorem sort_by_rank_stable (resolve : String → ResolveOutcome) (domains : List DomainRecord) :
    (sortResults (processBatch resolve domains)).Pairwise (fun a b => a.rank ≤ b.rank)
    ∧ (sortResults (processBatch resolve domains)).Perm (processBatch resolve domains)
    ∧ ∀ k : Int,
        (sortResults (processBatch resolve domains)).filter (fun r => decide (r.rank = k))
          = (domains.filter (fun r => decide (r.rank = k))).map (processRecord resolve) := by
  refine ⟨?_, ?_, ?_⟩
  · have h := List.sorted_mergeSort rankLe_trans rankLe_total (processBatch resolve domains)
    exact h.imp (by simp only [decide_eq_true_eq]; exact id)
  · exact List.mergeSort_perm (processBatch resolve domains) _
  · intro k
    set L := processBatch resolve domains with hL
    set p : FaviconResult → Bool := fun r => decide (r.rank = k) with hp
    have hmem : ∀ x ∈ L.filter p, x.rank = k := by
      intro x hx
      have := (List.mem_filter.mp hx).2
      simpa [hp] using this
    have hc : (L.filter p).Pairwise (fun a b => decide (a.rank ≤ b.rank) = true) := by
      rw [List.pairwise_iff_forall_sublist]
      intro a b hab
      have ha : a ∈ L.filter p := hab.subset (by simp)
      have hb : b ∈ L.filter p := hab.subset (by simp)
      simp [hmem a ha, hmem b hb]
    have hsub : List.Sublist (L.filter p) L := List.filter_sublist L
    have h1 : List.Sublist (L.filter p) (L.mergeSort (fun a b => decide (a.rank ≤ b.rank))) :=
      List.sublist_mergeSort rankLe_trans rankLe_total hc hsub
    have h2 : (L.filter p).filter p = L.filter p :=
      List.filter_eq_self.mpr (fun a ha => (List.mem_filter.mp ha).2)
    have h3 : List.Sublist (L.filter p) ((L.mergeSort (fun a b => decide (a.rank ≤ b.rank))).filter p) :=
      h2 ▸ h1.filter p
    have h4 : ((L.mergeSort (fun a b => decide (a.rank ≤ b.rank))).filter p).length
        = (L.filter p).length :=
      ((List.mergeSort_perm L _).filter p).length_eq
    have h5 : (L.mergeSort (fun a b => decide (a.rank ≤ b.rank))).filter p = L.filter p :=
      (h3.eq_of_length h4.symm).symm
    have h6 : L.filter p = (domains.filter (fun r => decide (r.rank = k))).map
        (processRecord resolve) := by
      rw [hL, processBatch_eq_map, List.filter_map]
      congr 1
      apply List.filter_congr
      intro r _
      simp [hp, Function.comp, processRecord, processRecordO_rank]
    exact h5.trans h6

theorem colon_good (s : String) (h : ':' ∈ s.toList) : s ≠ "" ∧ s ≠ "NOT_FOUND" := by
  refine ⟨fun he => ?_, fun he => ?_⟩ <;> subst he <;> revert h <;> decide

theorem colon_append (s t : String) :
    ':' ∈ (s ++ t).toList ↔ ':' ∈ s.toList ∨ ':' ∈ t.toList := by
  simp [String.toList]

theorem hasScheme_good (u : String) (h : hasScheme u = true) : u ≠ "" ∧ u ≠ "NOT_FOUND" := by
  refine ⟨fun he => ?_, fun he => ?_⟩ <;> subst he <;> revert h <;> decide

theorem strStarts_http_good (u : String) (h : strStarts u "http" = true) :
    u ≠ "" ∧ u ≠ "NOT_FOUND" := by
  refine ⟨fun he => ?_, fun he => ?_⟩ <;> subst he <;> revert h <;> decide

theorem urlOrigin_colon (b o : String) (h : urlOrigin b = some o) : ':' ∈ o.toList := by
  unfold urlOrigin at h
  cases hb : breakScheme b.toList with
  | none => rw [hb] at h; cases h
  | some pr =>
    obtain ⟨scheme, after⟩ := pr
    rw [hb] at h
    simp only at h
    split at h
    · cases h
    · injection h with h'
      subst h'
      exact List.mem_append_right _ (List.mem_cons_self _ _)

theorem urlResolveRel_good (rel base u : String) (h : urlResolveRel rel base = some u) :
    u ≠ "" ∧ u ≠ "NOT_FOUND" := by
  unfold urlResolveRel at h
  split at h
  · injection h with h'
    subst h'
    exact hasScheme_good rel (by assumption)
  · cases hb : breakScheme base.toList with
    | none => rw [hb] at h; cases h
    | some pr =>
      obtain ⟨scheme, after⟩ := pr
      rw [hb] at h
      simp only at h
      split at h
      · cases h
      · injection h with h'
        subst h'
        refine colon_good _ ?_
        exact List.mem_append_left _ (List.mem_append_left _
          (List.mem_append_right _ (List.mem_cons_self _ _)))

theorem icoUrl_good (p d : String) : icoUrl p d ≠ "" ∧ icoUrl p d ≠ "NOT_FOUND" := by
  refine colon_good _ ?_
  have h1 : ':' ∈ ("://" : String).toList := by decide
  simp [icoUrl, colon_append, h1]

theorem jsOr_good (o : Option String) (d : String) (ho : urlish o)
    (hd : d ≠ "" ∧ d ≠ "NOT_FOUND") : jsOr o d ≠ "" ∧ jsOr o d ≠ "NOT_FOUND" := by
  cases o with
  | none => exact hd
  | some s =>
    by_cases hs : s = ""
    · have he : jsOr (some s) d = d := by simp [jsOr, hs]
      rw [he]
      exact hd
    · have he : jsOr (some s) d = s := by simp [jsOr, hs]
      rw [he]
      exact ⟨hs, (colon_good s (ho s rfl hs)).2⟩

theorem normalizeCandidate_good (p b f u : String) (h : normalizeCandidate p b f = some u) :
    u ≠ "" ∧ u ≠ "NOT_FOUND" := by
  unfold normalizeCandidate at h
  split at h
  · injection h with h'
    subst h'
    refine colon_good _ ?_
    have h1 : ':' ∈ (":" : String).toList := by decide
    simp [colon_append, h1]
  · split at h
    · rw [Option.map_eq_some'] at h
      obtain ⟨o, ho, hu⟩ := h
      subst hu
      exact colon_good _ ((colon_append o f).mpr (Or.inl (urlOrigin_colon b o ho)))
    · split at h
      · exact urlResolveRel_good f b u h
      · injection h with h'
        rw [← h']
        refine strStarts_http_good f ?_
        simp_all

theorem htmlCandidate_good (p d : String) (r : HtmlResp) (u : String)
    (h : htmlCandidate p d r = some u) : u ≠ "" ∧ u ≠ "NOT_FOUND" := by
  unfold htmlCandidate at h
  obtain ⟨sel, hmem, htry⟩ := List.exists_of_findSome?_eq_some h
  unfold trySelector at htry
  split at htry
  · cases htry
  · split at htry
    · exact normalizeCandidate_good _ _ _ _ htry
    · cases htry

theorem probeResult_head_ok (p d : String) (s : NetScheme) (hr : HeadResp)
    (hh : s.headIco = .ok hr) :
    probeResult p d s
      = if 200 ≤ hr.status ∧ hr.status < 300 then some (jsOr hr.responseUrl (icoUrl p d))
        else none := by
  unfold probeResult
  rw [hh]

theorem probeResult_head_err_rethrow (p d : String) (s : NetScheme) (e : HeadErrInfo)
    (hh : s.headIco = .error e) (hre : headRethrows e = true) :
    probeResult p d s = none := by
  unfold probeResult
  rw [hh]
  simp [hre]

theorem probeResult_head_err_get_ok (p d : String) (s : NetScheme) (e : HeadErrInfo)
    (g : GetResp) (hh : s.headIco = .error e) (hre : headRethrows e = false)
    (hg : s.getIco = .ok g) :
    probeResult p d s
      = if 0 < g.dataSize then some (jsOr g.responseUrl (icoUrl p d)) else none := by
  unfold probeResult
  rw [hh, hg]
  simp [hre]

theorem probeResult_head_err_get_err (p d : String) (s : NetScheme) (e : HeadErrInfo)
    (x : Unit) (hh : s.headIco = .error e) (hre : headRethrows e = false)
    (hg : s.getIco = .error x) :
    probeResult p d s = none := by
  unfold probeResult
  rw [hh, hg]
  simp [hre]

theorem probeResult_good (p d : String) (s : NetScheme) (u : String) (hwf : wfScheme s)
    (h : probeResult p d s = some u) : u ≠ "" ∧ u ≠ "NOT_FOUND" := by
  cases hh : s.headIco with
  | ok hr =>
    rw [probeResult_head_ok p d s hr hh] at h
    by_cases hst : 200 ≤ hr.status ∧ hr.status < 300
    · rw [if_pos hst] at h
      injection h with h'
      rw [← h']
      exact jsOr_good _ _ (hwf.1 hr hh) (icoUrl_good p d)
    · rw [if_neg hst] at h
      cases h
  | error e =>
    by_cases hre : headRethrows e = true
    · rw [probeResult_head_err_rethrow p d s e hh hre] at h
      cases h
    · rw [Bool.not_eq_true] at hre
      cases hg : s.getIco with
      | ok g =>
        rw [probeResult_head_err_get_ok p d s e g hh hre hg] at h
        by_cases hds : 0 < g.dataSize
        · rw [if_pos hds] at h
          injection h with h'
          rw [← h']
          exact jsOr_good _ _ (hwf.2 g hg) (icoUrl_good p d)
        · rw [if_neg hds] at h
          cases h
      | error x =>
        rw [probeResult_head_err_get_err p d s e x hh hre hg] at h
        cases h

theorem schemeResult_good (p d : String) (s : NetScheme) (u : String) (hwf : wfScheme s)
    (h : schemeResult p d s = some u) : u ≠ "" ∧ u ≠ "NOT_FOUND" := by
  unfold schemeResult at h
  cases hp : probeResult p d s with
  | some v =>
    rw [hp] at h
    injection h with h'
    exact h' ▸ probeResult_good p d s v hwf hp
  | none =>
    rw [hp] at h
    cases hg : s.getHtml with
    | error e => rw [hg] at h; cases h
    | ok r => rw [hg] at h; exact htmlCandidate_good p d r u h

theorem findFavicon_on_hit (net' : Net) (cache' : String → Option String) (domain u : String)
    (h : cache' domain = some u) (h1 : u ≠ "") (h2 : u ≠ "NOT_FOUND") :
    findFavicon net' cache' domain = ⟨some u, [], []⟩ := by
  simp [findFavicon, h, h1, h2]

theorem findFavicon_on_sentinel (net' : Net) (cache' : String → Option String) (domain : String)
    (h : cache' domain = some "NOT_FOUND") :
    findFavicon net' cache' domain = ⟨none, [], []⟩ := by
  simp [findFavicon, h]

theorem findFaviconMiss_warm (net net' : Net) (cache : String → Option String) (domain : String)
    (hw1 : wfScheme net.https) (hw2 : wfScheme net.http) :
    findFavicon net' (applyWrites cache (findFaviconMiss net domain).writes) domain
      = ⟨(findFaviconMiss net domain).result, [], []⟩ := by
  cases hs1 : schemeResult "https" domain net.https with
  | some u =>
    have hg := schemeResult_good "https" domain net.https u hw1 hs1
    rw [show findFaviconMiss net domain
        = ⟨some u, [.set domain u], schemeOps "https" domain net.https⟩ from by
      unfold findFaviconMiss; rw [hs1]]
    have hau : applyWrites cache [CacheWrite.set domain u] domain = some u := by
      simp [applyWrites]
    exact findFavicon_on_hit net' _ domain u hau hg.1 hg.2
  | none =>
    cases hs2 : schemeResult "http" domain net.http with
    | some u =>
      have hg := schemeResult_good "http" domain net.http u hw2 hs2
      rw [show findFaviconMiss net domain
          = ⟨some u, [.set domain u],
              schemeOps "https" domain net.https ++ schemeOps "http" domain net.http⟩ from by
        unfold findFaviconMiss; rw [hs1, hs2]]
      have hau : applyWrites cache [CacheWrite.set domain u] domain = some u := by
        simp [applyWrites]
      exact findFavicon_on_hit net' _ domain u hau hg.1 hg.2
    | none =>
      rw [show findFaviconMiss net domain
          = ⟨none, [.setNotFound domain],
              schemeOps "https" domain net.https ++ schemeOps "http" domain net.http⟩ from by
        unfold findFaviconMiss; rw [hs1, hs2]]
      have hau : applyWrites cache [CacheWrite.setNotFound domain] domain
          = some "NOT_FOUND" := by
        simp [applyWrites]
      exact findFavicon_on_sentinel net' _ domain hau

/-- C9: re-running a domain's resolution against the cache state left by
a first run (whose network oracle is well formed) returns the same
value with no network operations and no writes, for any second network
oracle — so the per-record result (faviconUrl and status) of the second
run equals the first run's. -/
theorem warm_cache_second_run_identical (net net' : Net) (cache : String → Option String)
    (domain : String) (hwf : wfNet net) :
    findFavicon net' (applyWrites cache (findFavicon net cache domain).writes) domain
      = ⟨(findFavicon net cache domain).result, [], []⟩
    ∧ ∀ r : DomainRecord,
        processRecordO r (.ok
            (findFavicon net' (applyWrites cache (findFavicon net cache domain).writes)
              domain).result [])
          = processRecordO r (.ok (findFavicon net cache domain).result []) := by
  obtain ⟨hw1, hw2⟩ := hwf
  have hmain : findFavicon net' (applyWrites cache (findFavicon net cache domain).writes) domain
      = ⟨(findFavicon net cache domain).result, [], []⟩ := by
    cases hc : cache domain with
    | none =>
      rw [show findFavicon net cache domain = findFaviconMiss net domain from by
        unfold findFavicon; rw [hc]]
      exact findFaviconMiss_warm net net' cache domain hw1 hw2
    | some c =>
      by_cases hce : c = ""
      · subst hce
        rw [show findFavicon net cache domain = findFaviconMiss net domain from by
          unfold findFavicon; rw [hc]; simp]
        exact findFaviconMiss_warm net net' cache domain hw1 hw2
      · by_cases hcn : c = "NOT_FOUND"
        · subst hcn
          rw [show findFavicon net cache domain = ⟨none, [], []⟩ from by
            unfold findFavicon; rw [hc]; simp]
          exact findFavicon_on_sentinel net' _ domain (by simp [applyWrites, hc])
        · rw [show findFavicon net cache domain = ⟨some c, [], []⟩ from by
            unfold findFavicon; rw [hc]; simp [hce, hcn]]
          exact findFavicon_on_hit net' _ domain c (by simp [applyWrites, hc]) hce hcn
  refine ⟨hmain, fun r => ?_⟩
  rw [hmain]

/-- Witness for the warm-cache theorem: after a first run that cached
the negative sentinel, the second run returns `null` from the cache with
no network operations. -/
theorem warm_cache_second_run_identical_witness :
    findFavicon timeoutNet
        (applyWrites (fun _ => none) (findFavicon timeoutNet (fun _ => none) "a.com").writes)
        "a.com"
      = ⟨none, [], []⟩ :=
  (warm_cache_second_run_identical timeoutNet timeoutNet (fun _ => none) "a.com"
      (by refine ⟨⟨?_, ?_⟩, ⟨?_, ?_⟩⟩ <;> intro x hx <;>
        simp [timeoutNet, timeoutScheme] at hx)).1

end FaviconFinder
